import Mathlib

/-!
# A sticky-error pipeline: `pipeline.go`

Shallow embedding of the Go package `pipeline` (file `pipeline.go`).

* A Go interface value (`proto.Message`, `error`) is `Option _`, with `none` for `nil`.
* A Go result pair `(value, error)` whose value the code only reads when the error is `nil`
  (`ioutil.ReadFile`, `http.Get`, ...) is `Except E _`.  The result pair of a caller-supplied
  function is kept as a pair, because the code stores both components.
* Everything outside the package (file system, network, `proto.Marshal`) is a field of `Sys`;
  the outside world is an explicit value of type `W` that every effect takes and returns.
  Caller-supplied functions are Go closures, so they take and return the world as well.
* `State.calls` is a ghost log: each call site of a caller-supplied function in the source
  appends one `Call` with the arguments of the call.
* `Op.effect` is the effect of a method taken by itself, without guard and pipeline; `counting`
  is a call-counting stand-in for a caller-supplied function. Statements about what a method
  runs and how often are made against these.
* The mutex only serialises callers; the embedding is the sequential semantics of one caller.
-/

namespace GoPipeline

/-- Go's `[]byte`. -/
abbrev Bytes := List UInt8

/-- One CSV record, Go's `[]string`. -/
abbrev Record := List String

/-- The struct `Pipeline` (fields `data` and `err`; the mutex carries no data). -/
structure Pipeline (M E : Type) where
  data : Option M
  err : Option E

/-- The zero value, `new(pipeline.Pipeline)`. -/
def Pipeline.new {M E : Type} : Pipeline M E :=
  { data := none, err := none }

/-- One invocation of a caller-supplied function, with its arguments. -/
inductive Call (X M : Type) where
  | inspect (x : X) (data : Option M)
  | decode (raw : Bytes)
  | encode (records : List Record)
  | transform (data : Option M)

/-- The collaborators outside the package: `http.Get`, `ioutil.ReadAll` and `Close` on a response
body, `ioutil.WriteFile`, `ioutil.ReadFile`, `os.Open` and `Close` on a file, the successive
results of the CSV reader's record reads up to end of file, the reader's field-count error, and
`proto.Marshal`. -/
structure Sys (W M E R F : Type) where
  httpGet : String → W → Except E R × W
  bodyReadAll : R → W → Except E Bytes × W
  bodyClose : R → W → W
  writeFile : String → Bytes → W → Option E × W
  readFile : String → W → Except E Bytes × W
  osOpen : String → W → Except E F × W
  fileClose : F → W → W
  csvRecords : F → W → List (Except E Record) × W
  errFieldCount : E
  marshal : Option M → Except E Bytes

/-- A pipeline together with the outside world and the ghost log of callback invocations. -/
structure State (W X M E : Type) where
  p : Pipeline M E
  world : W
  calls : List (Call X M)

/-- A fresh pipeline in world `w`, nothing invoked yet. -/
def State.fresh {W X M E : Type} (w : W) : State W X M E :=
  { p := Pipeline.new, world := w, calls := [] }

variable {W X M E R F : Type}

/-- The accessor `Data`. -/
def Data (s : State W X M E) : Option M :=
  s.p.data

/-- The accessor `Error`. -/
def Error (s : State W X M E) : Option E :=
  s.p.err

/-- The method `Evaluate`. -/
def Evaluate (x : X) (fn : X → Option M → W → Option E × W) (s : State W X M E) :
    State W X M E :=
  match s.p.err with
  | some _ => s
  | none =>
    let r := fn x s.p.data s.world
    { p := { s.p with err := r.1 }
      world := r.2
      calls := s.calls ++ [Call.inspect x s.p.data] }

/-- The method `Gather`. The deferred `res.Body.Close()` runs on every return after a
successful `http.Get`. -/
def Gather (sys : Sys W M E R F) (sourceUrl targetFile : String) (s : State W X M E) :
    State W X M E :=
  match s.p.err with
  | some _ => s
  | none =>
    match sys.httpGet sourceUrl s.world with
    | (.error err, w1) => { s with p := { s.p with err := some err }, world := w1 }
    | (.ok res, w1) =>
      match sys.bodyReadAll res w1 with
      | (.error err, w2) =>
        { s with p := { s.p with err := some err }, world := sys.bodyClose res w2 }
      | (.ok raw, w2) =>
        let r := sys.writeFile targetFile raw w2
        { s with p := { s.p with err := r.1 }, world := sys.bodyClose res r.2 }

/-- The method `Load`. -/
def Load (sys : Sys W M E R F) (protoFilename : String)
    (fn : Bytes → W → (Option M × Option E) × W) (s : State W X M E) : State W X M E :=
  match s.p.err with
  | some _ => s
  | none =>
    match sys.readFile protoFilename s.world with
    | (.error err, w1) => { s with p := { s.p with err := some err }, world := w1 }
    | (.ok pb, w1) =>
      let r := fn pb w1
      { p := { data := r.1.1, err := r.1.2 }
        world := r.2
        calls := s.calls ++ [Call.decode pb] }

/-- Modelled from the spec: the delimited-text decoding collaborator (`ReadAll` of Go's
`encoding/csv` reader, which is not part of the package). The reader takes the successive record
reads until end of file; the first read error ends the loop with that error. `fieldsPerRecord`
is the reader's setting: when positive every record must have that many fields, when zero it is
set to the field count of the first record, when negative no check is made. -/
def csvReadAll (errFieldCount : E) :
    Int → List (Except E Record) → List Record → Except E (List Record)
  | _, [], records => .ok records
  | _, .error err :: _, _ => .error err
  | fieldsPerRecord, .ok record :: rest, records =>
    if 0 < fieldsPerRecord then
      if (record.length : Int) ≠ fieldsPerRecord then .error errFieldCount
      else csvReadAll errFieldCount fieldsPerRecord rest (records ++ [record])
    else if fieldsPerRecord = 0 then
      csvReadAll errFieldCount (record.length : Int) rest (records ++ [record])
    else csvReadAll errFieldCount fieldsPerRecord rest (records ++ [record])

/-- The method `Organize`. The reader is configured with `FieldsPerRecord = -1`; the deferred
`file.Close()` runs on every return after a successful `os.Open`. -/
def Organize (sys : Sys W M E R F) (csvFilename : String)
    (fn : List Record → W → (Option M × Option E) × W) (s : State W X M E) : State W X M E :=
  match s.p.err with
  | some _ => s
  | none =>
    match sys.osOpen csvFilename s.world with
    | (.error err, w1) => { s with p := { s.p with err := some err }, world := w1 }
    | (.ok file, w1) =>
      let rd := sys.csvRecords file w1
      match csvReadAll sys.errFieldCount (-1) rd.1 [] with
      | .error err =>
        { s with p := { s.p with err := some err }, world := sys.fileClose file rd.2 }
      | .ok records =>
        let r := fn records rd.2
        { p := { data := r.1.1, err := r.1.2 }
          world := sys.fileClose file r.2
          calls := s.calls ++ [Call.encode records] }

/-- The method `Save`. -/
def Save (sys : Sys W M E R F) (protoFilename : String) (s : State W X M E) : State W X M E :=
  match s.p.err with
  | some _ => s
  | none =>
    match sys.marshal s.p.data with
    | .error err => { s with p := { s.p with err := some err } }
    | .ok out =>
      let r := sys.writeFile protoFilename out s.world
      { s with p := { s.p with err := r.1 }, world := r.2 }

/-- The method `Transform`. -/
def Transform (fn : Option M → W → (Option M × Option E) × W) (s : State W X M E) :
    State W X M E :=
  match s.p.err with
  | some _ => s
  | none =>
    let r := fn s.p.data s.world
    { p := { data := r.1.1, err := r.1.2 }
      world := r.2
      calls := s.calls ++ [Call.transform s.p.data] }

/-- The method `Validate`. -/
def Validate (x : X) (fn : X → Option M → W → Option E × W) (s : State W X M E) :
    State W X M E :=
  match s.p.err with
  | some _ => s
  | none =>
    let r := fn x s.p.data s.world
    { p := { s.p with err := r.1 }
      world := r.2
      calls := s.calls ++ [Call.inspect x s.p.data] }

/-- One link of a fluent chain `p.Op1(...).Op2(...)...`: a mutating method with its arguments. -/
inductive Op (W X M E : Type) where
  | evaluate (x : X) (fn : X → Option M → W → Option E × W)
  | validate (x : X) (fn : X → Option M → W → Option E × W)
  | transform (fn : Option M → W → (Option M × Option E) × W)
  | load (protoFilename : String) (fn : Bytes → W → (Option M × Option E) × W)
  | organize (csvFilename : String) (fn : List Record → W → (Option M × Option E) × W)
  | save (protoFilename : String)
  | gather (sourceUrl targetFile : String)

/-- Calling the method of one link. -/
def Op.apply (sys : Sys W M E R F) : Op W X M E → State W X M E → State W X M E
  | .evaluate x fn, s => Evaluate x fn s
  | .validate x fn, s => Validate x fn s
  | .transform fn, s => Transform fn s
  | .load file fn, s => Load sys file fn s
  | .organize file fn, s => Organize sys file fn s
  | .save file, s => Save sys file s
  | .gather url file, s => Gather sys url file s

/-- Calling the methods of a chain from left to right. -/
def runChain (sys : Sys W M E R F) (ops : List (Op W X M E)) (s : State W X M E) :
    State W X M E :=
  ops.foldl (fun st op => op.apply sys st) s

/-- The method `Data` with its receiver made explicit: the value returned and the pipeline
after the call (`Lock`, `return p.data`, deferred `Unlock`). -/
def Pipeline.Data (p : Pipeline M E) : Option M × Pipeline M E :=
  (p.data, p)

/-- The method `Error` with its receiver made explicit: the value returned and the pipeline
after the call (`Lock`, `return p.err`, deferred `Unlock`). -/
def Pipeline.Error (p : Pipeline M E) : Option E × Pipeline M E :=
  (p.err, p)

/-- The transforming methods, the ones that assign `p.data`: `Transform`, `Load`, `Organize`. -/
def Op.isTransforming : Op W X M E → Bool
  | .transform _ => true
  | .load _ _ => true
  | .organize _ _ => true
  | _ => false

/-- The methods that take a caller-supplied function: all but `Save` and `Gather`. -/
def Op.takesFn : Op W X M E → Bool
  | .save _ => false
  | .gather _ _ => false
  | _ => true

/-- The payload that the caller-supplied function of a transforming link returns when the link
is called in state `s`: `fn` applied to the current payload (`Transform`), to the bytes read
(`Load`) or to the records read (`Organize`). There is none when the link is not transforming or
its read step fails. -/
def Op.returnedPayload (sys : Sys W M E R F) : Op W X M E → State W X M E → Option (Option M)
  | .transform fn, s => some (fn s.p.data s.world).1.1
  | .load file fn, s =>
    match sys.readFile file s.world with
    | (.error _, _) => none
    | (.ok pb, w1) => some (fn pb w1).1.1
  | .organize file fn, s =>
    match sys.osOpen file s.world with
    | (.error _, _) => none
    | (.ok f, w1) =>
      match csvReadAll sys.errFieldCount (-1) (sys.csvRecords f w1).1 [] with
      | .error _ => none
      | .ok records => some (fn records (sys.csvRecords f w1).2).1.1
  | _, _ => none

/-- The effect of a link, following the operation table of the spec: what the collaborators and
the caller-supplied function do when the link's effect is run once on the payload and the world
of `s`. It has no guard and does not touch the pipeline; the result is the error that the effect
returns (nil when it succeeds) and the world that it leaves.

* `Evaluate`, `Validate`: pass the input and the payload to `fn`.
* `Transform`: pass the payload to `fn`.
* `Load`: read the file; pass the bytes to `fn`.
* `Organize`: open the file, read its records, pass them to `fn`, close the file.
* `Save`: marshal the payload; write the bytes to the file.
* `Gather`: get the URL, read the body, write the bytes to the file, close the body. -/
def Op.effect (sys : Sys W M E R F) : Op W X M E → State W X M E → Option E × W
  | .evaluate x fn, s => fn x s.p.data s.world
  | .validate x fn, s => fn x s.p.data s.world
  | .transform fn, s => ((fn s.p.data s.world).1.2, (fn s.p.data s.world).2)
  | .load file fn, s =>
    match sys.readFile file s.world with
    | (.error e, w1) => (some e, w1)
    | (.ok pb, w1) => ((fn pb w1).1.2, (fn pb w1).2)
  | .organize file fn, s =>
    match sys.osOpen file s.world with
    | (.error e, w1) => (some e, w1)
    | (.ok f, w1) =>
      match csvReadAll sys.errFieldCount (-1) (sys.csvRecords f w1).1 [] with
      | .error e => (some e, sys.fileClose f (sys.csvRecords f w1).2)
      | .ok records =>
        ((fn records (sys.csvRecords f w1).2).1.2,
          sys.fileClose f (fn records (sys.csvRecords f w1).2).2)
  | .save file, s =>
    match sys.marshal s.p.data with
    | .error e => (some e, s.world)
    | .ok out => sys.writeFile file out s.world
  | .gather url file, s =>
    match sys.httpGet url s.world with
    | (.error e, w1) => (some e, w1)
    | (.ok res, w1) =>
      match sys.bodyReadAll res w1 with
      | (.error e, w2) => (some e, sys.bodyClose res w2)
      | (.ok raw, w2) =>
        ((sys.writeFile file raw w2).1, sys.bodyClose res (sys.writeFile file raw w2).2)

/-- A call-counting stand-in for a caller-supplied function: the world carries a counter; one
invocation runs `fn` on the world and adds one to the counter. -/
def counting {A B : Type} (fn : A → W → B × W) (a : A) (wn : W × Nat) : B × (W × Nat) :=
  ((fn a wn.1).1, ((fn a wn.1).2, wn.2 + 1))

/-- The collaborators on a world that carries a counter: they act on the world as before and
leave the counter alone. -/
def Sys.withCounter (sys : Sys W M E R F) : Sys (W × Nat) M E R F where
  httpGet url wn := ((sys.httpGet url wn.1).1, ((sys.httpGet url wn.1).2, wn.2))
  bodyReadAll res wn := ((sys.bodyReadAll res wn.1).1, ((sys.bodyReadAll res wn.1).2, wn.2))
  bodyClose res wn := (sys.bodyClose res wn.1, wn.2)
  writeFile path out wn :=
    ((sys.writeFile path out wn.1).1, ((sys.writeFile path out wn.1).2, wn.2))
  readFile path wn := ((sys.readFile path wn.1).1, ((sys.readFile path wn.1).2, wn.2))
  osOpen path wn := ((sys.osOpen path wn.1).1, ((sys.osOpen path wn.1).2, wn.2))
  fileClose f wn := (sys.fileClose f wn.1, wn.2)
  csvRecords f wn := ((sys.csvRecords f wn.1).1, ((sys.csvRecords f wn.1).2, wn.2))
  errFieldCount := sys.errFieldCount
  marshal := sys.marshal

/-- The state `s` with the counter `n` added to its world. -/
def State.withCounter (s : State W X M E) (n : Nat) : State (W × Nat) X M E :=
  { p := s.p, world := (s.world, n), calls := s.calls }

/-! ## A concrete system for evaluating the definitions -/

/-- An in-memory world: the files present, newest first. -/
abbrev MemWorld := List (String × Bytes)

/-- An in-memory instance of the collaborators. Messages are natural numbers, `n` is marshalled
to `n` zero bytes. Writing below the directory `not_exists/` fails, as does reading or opening a
file that is absent. A response body or an open file is its content; the CSV reader turns each
byte `b` into a record of `b` fields, except that byte `255` is a read error. -/
def memSys : Sys MemWorld Nat String Bytes Bytes where
  httpGet url w :=
    if url = "" then (.error "unsupported protocol scheme", w) else (.ok [3, 1], w)
  bodyReadAll body w := (.ok body, w)
  bodyClose _ w := w
  writeFile path out w :=
    if path.toList.take 11 = "not_exists/".toList then (some "no such file or directory", w)
    else (none, (path, out) :: w)
  readFile path w :=
    match w.lookup path with
    | some raw => (.ok raw, w)
    | none => (.error "no such file or directory", w)
  osOpen path w :=
    match w.lookup path with
    | some raw => (.ok raw, w)
    | none => (.error "no such file or directory", w)
  fileClose _ w := w
  csvRecords file w :=
    (file.map fun b =>
      if b = 255 then .error "read error" else .ok (List.replicate b.toNat "x"), w)
  errFieldCount := "wrong number of fields"
  marshal m :=
    match m with
    | none => .ok []
    | some n => .ok (List.replicate n 0)

/-- A decode function inverting `memSys.marshal` on messages. -/
def memDecode (raw : Bytes) (w : MemWorld) : (Option Nat × Option String) × MemWorld :=
  ((some raw.length, none), w)

/-- A decode function that fails with the error "failed". -/
def failDecode (_ : Bytes) (w : MemWorld) : (Option Nat × Option String) × MemWorld :=
  ((none, some "failed"), w)

/-- A transform function that fails with the error "failed" and returns no payload. -/
def failTransform (_ : Option Nat) (w : MemWorld) : (Option Nat × Option String) × MemWorld :=
  ((none, some "failed"), w)

/-- A transform function that succeeds with the payload `7`. -/
def sevenTransform (_ : Option Nat) (w : MemWorld) : (Option Nat × Option String) × MemWorld :=
  ((some 7, none), w)

/-- An inspection function that fails with the error "failed". -/
def failInspect (_ : String) (_ : Option Nat) (w : MemWorld) : Option String × MemWorld :=
  (some "failed", w)

/-- An encode function that stores the number of records. -/
def countEncode (records : List Record) (w : MemWorld) :
    (Option Nat × Option String) × MemWorld :=
  ((some records.length, none), w)

/-- A transform function that returns the payload `9` together with the error "failed". -/
def bothTransform (_ : Option Nat) (w : MemWorld) : (Option Nat × Option String) × MemWorld :=
  ((some 9, some "failed"), w)

/-- An inspection function that succeeds. -/
def okInspect (_ : String) (_ : Option Nat) (w : MemWorld) : Option String × MemWorld :=
  (none, w)

/-- A chain in which every effect succeeds: fetch a file, organize it into the number of its
records, inspect, save, load back, inspect again. -/
def memChain : List (Op MemWorld String Nat String) :=
  [Op.gather "u" "iris.csv", Op.organize "iris.csv" countEncode, Op.evaluate "x" okInspect,
    Op.save "iris.pb", Op.load "iris.pb" memDecode, Op.validate "y" okInspect]

/-- A fresh pipeline in the empty in-memory world. -/
def memFresh : State MemWorld String Nat String :=
  State.fresh []

/-- A pipeline holding the payload `3` without fault, reached by one `Transform`. -/
def memThree : State MemWorld String Nat String :=
  Transform (fun _ w => ((some 3, none), w)) memFresh

/-- A faulted pipeline holding the payload `5`. -/
def memFaulted : State MemWorld String Nat String :=
  { p := { data := some 5, err := some "earlier" }, world := [], calls := [] }

/-- A chain whose second link, a `Gather` of an unsupported URL, is the first to fail; the
links after it would fail with other errors if they were run. -/
def memFailingChain : List (Op MemWorld String Nat String) :=
  [Op.transform sevenTransform] ++ Op.gather "" "iris.csv" ::
    [Op.evaluate "x" failInspect, Op.load "missing.pb" memDecode, Op.save "a.pb"]

/-! ## The faulted state is absorbing -/

theorem Evaluate_of_faulted (x : X) (fn : X → Option M → W → Option E × W)
    (s : State W X M E) (e : E) (h : s.p.err = some e) : Evaluate x fn s = s := by
  simp [Evaluate, h]

theorem Validate_of_faulted (x : X) (fn : X → Option M → W → Option E × W)
    (s : State W X M E) (e : E) (h : s.p.err = some e) : Validate x fn s = s := by
  simp [Validate, h]

theorem Transform_of_faulted (fn : Option M → W → (Option M × Option E) × W)
    (s : State W X M E) (e : E) (h : s.p.err = some e) : Transform fn s = s := by
  simp [Transform, h]

theorem Load_of_faulted (sys : Sys W M E R F) (file : String)
    (fn : Bytes → W → (Option M × Option E) × W)
    (s : State W X M E) (e : E) (h : s.p.err = some e) : Load sys file fn s = s := by
  simp [Load, h]

theorem Organize_of_faulted (sys : Sys W M E R F) (file : String)
    (fn : List Record → W → (Option M × Option E) × W)
    (s : State W X M E) (e : E) (h : s.p.err = some e) : Organize sys file fn s = s := by
  simp [Organize, h]

theorem Save_of_faulted (sys : Sys W M E R F) (file : String)
    (s : State W X M E) (e : E) (h : s.p.err = some e) : Save sys file s = s := by
  simp [Save, h]

theorem Gather_of_faulted (sys : Sys W M E R F) (url file : String)
    (s : State W X M E) (e : E) (h : s.p.err = some e) : Gather sys url file s = s := by
  simp [Gather, h]

/-- A link applied to a faulted pipeline returns the whole state as it was. -/
theorem apply_of_faulted (sys : Sys W M E R F) (op : Op W X M E) (s : State W X M E) (e : E)
    (h : s.p.err = some e) : op.apply sys s = s := by
  cases op with
  | evaluate x fn => exact Evaluate_of_faulted x fn s e h
  | validate x fn => exact Validate_of_faulted x fn s e h
  | transform fn => exact Transform_of_faulted fn s e h
  | load file fn => exact Load_of_faulted sys file fn s e h
  | organize file fn => exact Organize_of_faulted sys file fn s e h
  | save file => exact Save_of_faulted sys file s e h
  | gather url file => exact Gather_of_faulted sys url file s e h

/-- A chain applied to a faulted pipeline returns the whole state as it was. -/
theorem runChain_of_faulted (sys : Sys W M E R F) (ops : List (Op W X M E))
    (s : State W X M E) (e : E) (h : s.p.err = some e) : runChain sys ops s = s := by
  induction ops with
  | nil => rfl
  | cons op rest ih =>
    show runChain sys rest (op.apply sys s) = s
    rw [apply_of_faulted sys op s e h]
    exact ih

theorem runChain_append (sys : Sys W M E R F) (pre post : List (Op W X M E))
    (s : State W X M E) :
    runChain sys (pre ++ post) s = runChain sys post (runChain sys pre s) := by
  simp [runChain, List.foldl_append]

theorem runChain_cons (sys : Sys W M E R F) (op : Op W X M E) (post : List (Op W X M E))
    (s : State W X M E) :
    runChain sys (op :: post) s = runChain sys post (op.apply sys s) := rfl

/-- C2. On a pipeline whose fault is set, each of the seven mutating methods, with any
arguments, leaves the payload and the fault as they were. -/
theorem faulted_is_absorbing (sys : Sys W M E R F) (op : Op W X M E) (s : State W X M E)
    (h : Error s ≠ none) :
    Data (op.apply sys s) = Data s ∧ Error (op.apply sys s) = Error s := by
  obtain ⟨e, he⟩ := Option.ne_none_iff_exists'.mp h
  rw [apply_of_faulted sys op s e he]
  exact ⟨rfl, rfl⟩

/-- Witness for C2: `Transform` on a faulted pipeline. -/
theorem faulted_is_absorbing_witness :
    Data (Transform sevenTransform memFaulted) = some 5 ∧
      Error (Transform sevenTransform memFaulted) = some "earlier" :=
  faulted_is_absorbing memSys (Op.transform sevenTransform) memFaulted (by decide)

/-- C4, as stated, fails: after a successful `Transform` has stored the payload `7`, a
`Transform` whose function returns no payload together with the error "failed" records that
error and replaces the payload. -/
theorem failure_keeps_payload_counterexample :
    Error (Transform sevenTransform memFresh) = none ∧
    (failTransform (Data (Transform sevenTransform memFresh))
      (Transform sevenTransform memFresh).world).1 = (none, some "failed") ∧
    Error (Transform failTransform (Transform sevenTransform memFresh)) = some "failed" ∧
    Data (Transform sevenTransform memFresh) = some 7 ∧
    Data (Transform failTransform (Transform sevenTransform memFresh)) = none ∧
    Data (Transform failTransform (Transform sevenTransform memFresh)) ≠
      Data (Transform sevenTransform memFresh) := by
  decide

/-- C4, amended. On a pipeline without fault, a transforming method whose effect fails with
`e` records `e`. When the failure is in the method's own read step (`Load` cannot read the file,
`Organize` cannot open or read it) the payload stays as it was; when the caller-supplied function
returns `e`, the payload becomes the payload value that the function returned with it. -/
theorem failure_records_error (sys : Sys W M E R F) (s : State W X M E) (e : E)
    (h : Error s = none) :
    (∀ fn, (fn (Data s) s.world).1.2 = some e →
      Error (Transform fn s) = some e ∧
      Data (Transform fn s) = (fn (Data s) s.world).1.1) ∧
    (∀ file fn, (sys.readFile file s.world).1 = .error e →
      Error (Load sys file fn s) = some e ∧ Data (Load sys file fn s) = Data s) ∧
    (∀ file fn pb w1, sys.readFile file s.world = (.ok pb, w1) → (fn pb w1).1.2 = some e →
      Error (Load sys file fn s) = some e ∧ Data (Load sys file fn s) = (fn pb w1).1.1) ∧
    (∀ file fn, (sys.osOpen file s.world).1 = .error e →
      Error (Organize sys file fn s) = some e ∧ Data (Organize sys file fn s) = Data s) ∧
    (∀ file fn f w1, sys.osOpen file s.world = (.ok f, w1) →
      csvReadAll sys.errFieldCount (-1) (sys.csvRecords f w1).1 [] = .error e →
      Error (Organize sys file fn s) = some e ∧ Data (Organize sys file fn s) = Data s) ∧
    (∀ file fn f w1 records, sys.osOpen file s.world = (.ok f, w1) →
      csvReadAll sys.errFieldCount (-1) (sys.csvRecords f w1).1 [] = .ok records →
      (fn records (sys.csvRecords f w1).2).1.2 = some e →
      Error (Organize sys file fn s) = some e ∧
      Data (Organize sys file fn s) = (fn records (sys.csvRecords f w1).2).1.1) := by
  have hs : s.p.err = none := h
  refine ⟨?_, ?_, ?_, ?_, ?_, ?_⟩
  · intro fn hfn
    simp only [Data] at hfn
    simp [Transform, hs, Error, Data, hfn]
  · intro file fn hr
    rcases hrd : sys.readFile file s.world with ⟨r, w1⟩
    rw [hrd] at hr
    simp only at hr
    subst hr
    simp [Load, hs, hrd, Error, Data]
  · intro file fn pb w1 hr hfn
    simp [Load, hs, hr, Error, Data, hfn]
  · intro file fn ho
    rcases hod : sys.osOpen file s.world with ⟨r, w1⟩
    rw [hod] at ho
    simp only at ho
    subst ho
    simp [Organize, hs, hod, Error, Data]
  · intro file fn f w1 ho hc
    simp [Organize, hs, ho, hc, Error, Data]
  · intro file fn f w1 records ho hc hfn
    simp [Organize, hs, ho, hc, Error, Data, hfn]

/-- Witness for C4, amended: a failing `Transform` on a pipeline holding the payload `7`. -/
theorem failure_records_error_witness :
    Error (Transform failTransform (Transform sevenTransform memFresh)) = some "failed" ∧
    Data (Transform failTransform (Transform sevenTransform memFresh)) = none :=
  (failure_records_error memSys (Transform sevenTransform memFresh) "failed" rfl).1
    failTransform rfl

/-- C5. On a pipeline without fault holding the payload `d`, when `fn` applied to `d` returns
`(newPayload, nil)`, after `Transform(fn)` `Data()` is `newPayload` and `Error()` is nil; the one
invocation of `fn` has the payload `d` as its argument. -/
theorem Transform_success (fn : Option M → W → (Option M × Option E) × W)
    (s : State W X M E) (newPayload : Option M) (w1 : W)
    (h : Error s = none) (hfn : fn (Data s) s.world = ((newPayload, none), w1)) :
    Data (Transform fn s) = newPayload ∧ Error (Transform fn s) = none ∧
      (Transform fn s).calls = s.calls ++ [Call.transform (Data s)] := by
  have hs : s.p.err = none := h
  simp only [Data] at hfn
  simp [Transform, hs, Error, Data, hfn]

/-- Witness for C5: a `Transform` returning the payload `7` on a fresh pipeline. -/
theorem Transform_success_witness :
    Data (Transform sevenTransform memFresh) = some 7 ∧
      Error (Transform sevenTransform memFresh) = none ∧
      (Transform sevenTransform memFresh).calls =
        memFresh.calls ++ [Call.transform (Data memFresh)] :=
  Transform_success sevenTransform memFresh (some 7) [] rfl rfl

/-- C6. On a pipeline without fault with payload `d`, after `Evaluate(x, fn)`, and likewise
after `Validate(x, fn)`, `Error()` is the value that `fn(x, d)` returned. -/
theorem Evaluate_Validate_record_result (x : X) (fn : X → Option M → W → Option E × W)
    (s : State W X M E) (h : Error s = none) :
    Error (Evaluate x fn s) = (fn x (Data s) s.world).1 ∧
      Error (Validate x fn s) = (fn x (Data s) s.world).1 := by
  have hs : s.p.err = none := h
  simp [Evaluate, Validate, hs, Error, Data]

/-- Witness for C6: the function returning the error "failed", as in the tests. -/
theorem Evaluate_Validate_record_result_witness :
    Error (Evaluate "nothing ..." failInspect memFresh) = some "failed" ∧
      Error (Validate "nothing ..." failInspect memFresh) = some "failed" :=
  Evaluate_Validate_record_result "nothing ..." failInspect memFresh rfl

/-- C7. `Evaluate`, `Validate`, `Save` and `Gather` leave the payload as it was, in every
state, for every argument and every outcome of the effect. -/
theorem readonly_methods_keep_payload (sys : Sys W M E R F) (s : State W X M E) :
    (∀ x fn, Data (Evaluate x fn s) = Data s) ∧
    (∀ x fn, Data (Validate x fn s) = Data s) ∧
    (∀ file, Data (Save sys file s) = Data s) ∧
    (∀ url file, Data (Gather sys url file s) = Data s) := by
  refine ⟨?_, ?_, ?_, ?_⟩
  · intro x fn
    cases hs : s.p.err <;> simp [Evaluate, hs, Data]
  · intro x fn
    cases hs : s.p.err <;> simp [Validate, hs, Data]
  · intro file
    cases hs : s.p.err with
    | some e => simp [Save, hs, Data]
    | none =>
      cases hm : sys.marshal s.p.data <;> simp [Save, hs, hm, Data]
  · intro url file
    cases hs : s.p.err with
    | some e => simp [Gather, hs, Data]
    | none =>
      rcases hg : sys.httpGet url s.world with ⟨_ | res, w1⟩
      · simp [Gather, hs, hg, Data]
      · rcases hb : sys.bodyReadAll res w1 with ⟨_ | raw, w2⟩ <;>
          simp [Gather, hs, hg, hb, Data]

/-- C9. On a pipeline without fault holding a message `d` that marshals to `out`, when writing
`out` to `path` succeeds, a later read of `path` returns `out`, and `decode` applied to `out`
returns `(d, nil)`, then after `Save(path)` followed by `Load(path, decode)` `Data()` is `d`
and `Error()` is nil. -/
theorem Save_Load_round_trip (sys : Sys W M E R F) (path : String)
    (decode : Bytes → W → (Option M × Option E) × W) (s : State W X M E)
    (d : M) (out : Bytes) (w1 w2 w3 : W)
    (h : Error s = none) (hd : Data s = some d)
    (hm : sys.marshal (some d) = .ok out)
    (hw : sys.writeFile path out s.world = (none, w1))
    (hr : sys.readFile path w1 = (.ok out, w2))
    (hdec : decode out w2 = ((some d, none), w3)) :
    Data (Load sys path decode (Save sys path s)) = some d ∧
      Error (Load sys path decode (Save sys path s)) = none := by
  have hs : s.p.err = none := h
  have hd1 : s.p.data = some d := hd
  have hsave : Save sys path s = { s with world := w1 } := by
    cases s with
    | mk p world calls =>
      cases p with
      | mk data err =>
        simp only at hs hd1 hw
        subst hs hd1
        simp [Save, hm, hw]
  rw [hsave]
  simp [Load, hs, hr, hdec, Data, Error]

/-- Witness for C9: the payload `3` saved to and loaded from the in-memory file system. -/
theorem Save_Load_round_trip_witness :
    Data (Load memSys "testdata/save.pb" memDecode
        (Save memSys "testdata/save.pb" memThree)) = some 3 ∧
      Error (Load memSys "testdata/save.pb" memDecode
        (Save memSys "testdata/save.pb" memThree)) = none :=
  Save_Load_round_trip memSys "testdata/save.pb" memDecode memThree 3 [0, 0, 0]
    [("testdata/save.pb", [0, 0, 0])] [("testdata/save.pb", [0, 0, 0])]
    [("testdata/save.pb", [0, 0, 0])] rfl rfl rfl rfl rfl rfl

/-- With a negative field count setting the reader checks nothing: it returns the first read
error if there is one, and otherwise all records in order. -/
theorem csvReadAll_neg (errFieldCount : E) (n : Int) (hn : n < 0)
    (raws : List (Except E Record)) (acc : List Record) :
    (∃ records, raws = records.map Except.ok ∧
        csvReadAll errFieldCount n raws acc = .ok (acc ++ records)) ∨
      (∃ e, Except.error e ∈ raws ∧ csvReadAll errFieldCount n raws acc = .error e) := by
  induction raws generalizing acc with
  | nil => exact Or.inl ⟨[], rfl, by simp [csvReadAll]⟩
  | cons r rest ih =>
    cases r with
    | error e => exact Or.inr ⟨e, by simp, by simp [csvReadAll]⟩
    | ok record =>
      have h1 : ¬ (0 < n) := by omega
      have h2 : ¬ (n = 0) := by omega
      rcases ih (acc ++ [record]) with ⟨records, hrec, hres⟩ | ⟨e, hmem, hres⟩
      · exact Or.inl ⟨record :: records, by simp [hrec], by simp [csvReadAll, h1, h2, hres]⟩
      · exact Or.inr ⟨e, by simp [hmem], by simp [csvReadAll, h1, h2, hres]⟩

/-- With a negative field count setting, records of any field counts are returned as read. -/
theorem csvReadAll_neg_ok (errFieldCount : E) (n : Int) (hn : n < 0) (records : List Record) :
    csvReadAll errFieldCount n (records.map Except.ok) [] = .ok records := by
  rcases csvReadAll_neg errFieldCount n hn (records.map Except.ok) [] with
    ⟨records2, hrec, hres⟩ | ⟨e, hmem, _⟩
  · have hinj : Function.Injective (Except.ok : Record → Except E Record) := by
      intro a b hab
      cases hab
      rfl
    have : records = records2 := List.map_injective_iff.mpr hinj hrec
    simpa [this] using hres
  · simp at hmem

/-- C10. On a pipeline without fault, `Error()` after `Organize(file, fn)` is an error `e` only
if opening the file failed with `e`, or a record read failed with `e`, or `fn`, applied to the
records read, returned `e`. The reader makes no field count check: whenever every record read
succeeds, whatever the field counts of the records, `fn` is invoked once with exactly these
records and its two results become the payload and the fault. -/
theorem Organize_fault_causes (sys : Sys W M E R F) (file : String)
    (fn : List Record → W → (Option M × Option E) × W) (s : State W X M E)
    (h : Error s = none) :
    (∀ e, Error (Organize sys file fn s) = some e →
      (sys.osOpen file s.world).1 = .error e ∨
      (∃ f w1, sys.osOpen file s.world = (.ok f, w1) ∧
        Except.error e ∈ (sys.csvRecords f w1).1) ∨
      (∃ f w1 records, sys.osOpen file s.world = (.ok f, w1) ∧
        (sys.csvRecords f w1).1 = records.map Except.ok ∧
        (fn records (sys.csvRecords f w1).2).1.2 = some e)) ∧
    (∀ f w1 records, sys.osOpen file s.world = (.ok f, w1) →
      (sys.csvRecords f w1).1 = records.map Except.ok →
      (Organize sys file fn s).calls = s.calls ++ [Call.encode records] ∧
      Data (Organize sys file fn s) = (fn records (sys.csvRecords f w1).2).1.1 ∧
      Error (Organize sys file fn s) = (fn records (sys.csvRecords f w1).2).1.2) := by
  have hs : s.p.err = none := h
  constructor
  · intro e he
    rcases ho : sys.osOpen file s.world with ⟨e1 | f, w1⟩
    · left
      simp [Organize, hs, ho, Error] at he
      simp [he]
    · right
      rcases csvReadAll_neg sys.errFieldCount (-1) (by decide) (sys.csvRecords f w1).1 [] with
        ⟨records, hrec, hres⟩ | ⟨e2, hmem, hres⟩
      · right
        refine ⟨f, w1, records, rfl, hrec, ?_⟩
        simp only [List.nil_append] at hres
        simpa [Organize, hs, ho, hres, Error] using he
      · left
        refine ⟨f, w1, rfl, ?_⟩
        simp [Organize, hs, ho, hres, Error] at he
        simpa [he] using hmem
  · intro f w1 records ho hrec
    have hres := csvReadAll_neg_ok sys.errFieldCount (-1) (by decide) records
    rw [← hrec] at hres
    simp [Organize, hs, ho, hres, Data, Error]

/-- Witness for C10: a file whose two records have three fields and one field is accepted,
and both records reach the encode function. -/
theorem Organize_fault_causes_witness :
    (Organize memSys "iris.csv" countEncode (Gather memSys "u" "iris.csv" memFresh)).calls =
        (Gather memSys "u" "iris.csv" memFresh).calls ++
          [Call.encode [["x", "x", "x"], ["x"]]] ∧
      Data (Organize memSys "iris.csv" countEncode (Gather memSys "u" "iris.csv" memFresh)) =
        some 2 ∧
      Error (Organize memSys "iris.csv" countEncode (Gather memSys "u" "iris.csv" memFresh)) =
        none :=
  (Organize_fault_causes memSys "iris.csv" countEncode (Gather memSys "u" "iris.csv" memFresh)
    rfl).2 [3, 1] [("iris.csv", [3, 1])] [["x", "x", "x"], ["x"]] rfl rfl

/-- C11. A freshly constructed pipeline is empty: `Data()` and `Error()` return nil. Calling
either accessor returns the stored field and leaves the pipeline, hence payload and fault, as it
was. -/
theorem fresh_is_empty_and_accessors_read_only (w : W) (p : Pipeline M E) :
    Data (State.fresh w : State W X M E) = none ∧
    Error (State.fresh w : State W X M E) = none ∧
    (Pipeline.new : Pipeline M E).Data.1 = none ∧
    (Pipeline.new : Pipeline M E).Error.1 = none ∧
    p.Data.1 = p.data ∧ p.Data.2 = p ∧ p.Error.1 = p.err ∧ p.Error.2 = p ∧
    p.Data.2.Error.2.data = p.data ∧ p.Data.2.Error.2.err = p.err :=
  ⟨rfl, rfl, rfl, rfl, rfl, rfl, rfl, rfl, rfl, rfl⟩

/-- C12. On a pipeline without fault whose payload is nil, marshalling nil yielding bytes
`out` without error (as `proto.Marshal` does), `Error()` after `Save(path)` is the result of
writing `out` to `path`: nil when the write succeeds, the write error when it fails. -/
theorem Save_nil_payload (sys : Sys W M E R F) (path : String) (s : State W X M E)
    (out : Bytes) (h : Error s = none) (hd : Data s = none)
    (hm : sys.marshal none = .ok out) :
    Error (Save sys path s) = (sys.writeFile path out s.world).1 ∧
    ((sys.writeFile path out s.world).1 = none → Error (Save sys path s) = none) ∧
    (∀ e, (sys.writeFile path out s.world).1 = some e →
      Error (Save sys path s) = some e ∧ Error (Save sys path s) ≠ none) := by
  have hs : s.p.err = none := h
  have hd1 : s.p.data = none := hd
  have key : Error (Save sys path s) = (sys.writeFile path out s.world).1 := by
    rw [← hd1] at hm
    simp [Save, hs, hm, Error]
  refine ⟨key, ?_, ?_⟩
  · intro hw
    rw [key, hw]
  · intro e hw
    rw [key, hw]
    exact ⟨rfl, by simp⟩

/-- Witness for C12: the two `Save` tests, on a fresh pipeline: a writable path, and a path
below a directory that does not exist. -/
theorem Save_nil_payload_witness :
    Error (Save memSys "testdata/save.pb" memFresh) = none ∧
      Error (Save memSys "not_exists/save.pb" memFresh) = some "no such file or directory" ∧
      Error (Save memSys "not_exists/save.pb" memFresh) ≠ none :=
  ⟨(Save_nil_payload memSys "testdata/save.pb" memFresh [] rfl rfl rfl).2.1 rfl,
    (Save_nil_payload memSys "not_exists/save.pb" memFresh [] rfl rfl rfl).2.2
      "no such file or directory" rfl⟩

/-- C14. `Evaluate` and `Validate` are the same operation: in every state, faulted or not, for
every input `x` and function `fn`, they produce the same state, so the same payload and fault,
and the same log of invocations of `fn` (same number, same arguments). -/
theorem Evaluate_eq_Validate (x : X) (fn : X → Option M → W → Option E × W)
    (s : State W X M E) :
    Evaluate x fn s = Validate x fn s ∧
    Data (Evaluate x fn s) = Data (Validate x fn s) ∧
    Error (Evaluate x fn s) = Error (Validate x fn s) ∧
    (Evaluate x fn s).calls = (Validate x fn s).calls := by
  have key : Evaluate x fn s = Validate x fn s := rfl
  rw [key]
  exact ⟨rfl, rfl, rfl, rfl⟩

/-- C15. On a pipeline without fault, a transforming method stores both results of the
caller-supplied function as returned, whether or not the error is nil: `Transform` those of `fn`
applied to the current payload, `Load` those of `fn` applied to the bytes read once the read has
succeeded, `Organize` those of `fn` applied to the records read once opening and reading have
succeeded. The function is invoked once, on that argument. -/
theorem transforming_methods_store_both_results (sys : Sys W M E R F) (s : State W X M E)
    (h : Error s = none) :
    (∀ fn, Data (Transform fn s) = (fn (Data s) s.world).1.1 ∧
      Error (Transform fn s) = (fn (Data s) s.world).1.2 ∧
      (Transform fn s).calls = s.calls ++ [Call.transform (Data s)]) ∧
    (∀ file fn pb w1, sys.readFile file s.world = (.ok pb, w1) →
      Data (Load sys file fn s) = (fn pb w1).1.1 ∧
      Error (Load sys file fn s) = (fn pb w1).1.2 ∧
      (Load sys file fn s).calls = s.calls ++ [Call.decode pb]) ∧
    (∀ file fn f w1 records, sys.osOpen file s.world = (.ok f, w1) →
      csvReadAll sys.errFieldCount (-1) (sys.csvRecords f w1).1 [] = .ok records →
      Data (Organize sys file fn s) = (fn records (sys.csvRecords f w1).2).1.1 ∧
      Error (Organize sys file fn s) = (fn records (sys.csvRecords f w1).2).1.2 ∧
      (Organize sys file fn s).calls = s.calls ++ [Call.encode records]) := by
  have hs : s.p.err = none := h
  refine ⟨?_, ?_, ?_⟩
  · intro fn
    simp [Transform, hs, Data, Error]
  · intro file fn pb w1 hr
    simp [Load, hs, hr, Data, Error]
  · intro file fn f w1 records ho hc
    simp [Organize, hs, ho, hc, Data, Error]

/-- Witness for C15: a `Transform` whose function returns the payload `9` together with the
error "failed" on a pipeline holding the payload `3`; both are stored. -/
theorem transforming_methods_store_both_results_witness :
    Data (Transform bothTransform memThree) = some 9 ∧
      Error (Transform bothTransform memThree) = some "failed" ∧
      (Transform bothTransform memThree).calls =
        memThree.calls ++ [Call.transform (Data memThree)] :=
  (transforming_methods_store_both_results memSys memThree rfl).1 bothTransform

/-! ## Chains without fault -/

theorem runChain_snoc (sys : Sys W M E R F) (init : List (Op W X M E)) (last : Op W X M E)
    (s : State W X M E) :
    runChain sys (init ++ [last]) s = last.apply sys (runChain sys init s) := by
  rw [runChain_append]
  rfl

/-- A chain that ends without fault has no fault after any of its initial parts. -/
theorem error_none_of_runChain_append (sys : Sys W M E R F) (pre post : List (Op W X M E))
    (s : State W X M E) (h : Error (runChain sys (pre ++ post) s) = none) :
    Error (runChain sys pre s) = none := by
  rw [runChain_append] at h
  cases hp : (runChain sys pre s).p.err with
  | none => exact hp
  | some e =>
    rw [runChain_of_faulted sys post _ e hp] at h
    have h2 : (runChain sys pre s).p.err = none := h
    rw [hp] at h2
    cases h2

/-- In a chain that ends without fault, every link leaves no fault. -/
theorem all_succeed_of_final_ok (sys : Sys W M E R F) (chain : List (Op W X M E))
    (s : State W X M E) (h : Error (runChain sys chain s) = none)
    (pre : List (Op W X M E)) (op : Op W X M E) (post : List (Op W X M E))
    (hsplit : chain = pre ++ op :: post) (_ : Error (runChain sys pre s) = none) :
    Error (op.apply sys (runChain sys pre s)) = none := by
  have h2 : Error (runChain sys ((pre ++ [op]) ++ post) s) = none := by
    rw [hsplit] at h
    simpa using h
  have h3 := error_none_of_runChain_append sys (pre ++ [op]) post s h2
  rwa [runChain_snoc] at h3

/-- When every link that is entered without fault leaves no fault, the chain ends without
fault. -/
theorem runChain_ok_of_all_succeed (sys : Sys W M E R F) (s : State W X M E)
    (hs : Error s = none) (chain : List (Op W X M E))
    (h : ∀ pre op post, chain = pre ++ op :: post → Error (runChain sys pre s) = none →
      Error (op.apply sys (runChain sys pre s)) = none) :
    Error (runChain sys chain s) = none := by
  induction chain using List.reverseRecOn with
  | nil => exact hs
  | append_singleton init last ih =>
    have hinit : Error (runChain sys init s) = none := by
      apply ih
      intro pre op post hsplit hpre
      exact h pre op (post ++ [last]) (by simp [hsplit]) hpre
    rw [runChain_snoc]
    exact h init last [] rfl hinit

/-- A link that is entered without fault and leaves no fault has run its effect to the end: a
link with a caller-supplied function has invoked it once, the other links invoke nothing. -/
theorem apply_calls_of_ok (sys : Sys W M E R F) (op : Op W X M E) (s : State W X M E)
    (h : Error s = none) (hok : Error (op.apply sys s) = none) :
    ∃ l, (op.apply sys s).calls = s.calls ++ l ∧ l.length = if op.takesFn then 1 else 0 := by
  have hs : s.p.err = none := h
  cases op with
  | evaluate x fn =>
    exact ⟨[Call.inspect x s.p.data], by simp [Op.apply, Evaluate, hs], by simp [Op.takesFn]⟩
  | validate x fn =>
    exact ⟨[Call.inspect x s.p.data], by simp [Op.apply, Validate, hs], by simp [Op.takesFn]⟩
  | transform fn =>
    exact ⟨[Call.transform s.p.data], by simp [Op.apply, Transform, hs], by simp [Op.takesFn]⟩
  | load file fn =>
    rcases hr : sys.readFile file s.world with ⟨e | pb, w1⟩
    · simp [Op.apply, Load, hs, hr, Error] at hok
    · exact ⟨[Call.decode pb], by simp [Op.apply, Load, hs, hr], by simp [Op.takesFn]⟩
  | organize file fn =>
    rcases ho : sys.osOpen file s.world with ⟨e | f, w1⟩
    · simp [Op.apply, Organize, hs, ho, Error] at hok
    · cases hc : csvReadAll sys.errFieldCount (-1) (sys.csvRecords f w1).1 [] with
      | error err => simp [Op.apply, Organize, hs, ho, hc, Error] at hok
      | ok records =>
        exact ⟨[Call.encode records], by simp [Op.apply, Organize, hs, ho, hc],
          by simp [Op.takesFn]⟩
  | save file =>
    refine ⟨[], ?_, by simp [Op.takesFn]⟩
    cases hm : sys.marshal s.p.data <;> simp [Op.apply, Save, hs, hm]
  | gather url file =>
    refine ⟨[], ?_, by simp [Op.takesFn]⟩
    rcases hg : sys.httpGet url s.world with ⟨_ | res, w1⟩
    · simp [Op.apply, Gather, hs, hg]
    · rcases hb : sys.bodyReadAll res w1 with ⟨_ | raw, w2⟩ <;>
        simp [Op.apply, Gather, hs, hg, hb]

/-- In a chain that ends without fault, the caller-supplied functions have been invoked once
per link that takes one. -/
theorem runChain_calls_length (sys : Sys W M E R F) (s : State W X M E)
    (chain : List (Op W X M E)) (hok : Error (runChain sys chain s) = none) :
    (runChain sys chain s).calls.length = s.calls.length + chain.countP Op.takesFn := by
  induction chain using List.reverseRecOn with
  | nil => simp [runChain]
  | append_singleton init last ih =>
    have hinit := error_none_of_runChain_append sys init [last] s hok
    rw [runChain_snoc] at hok ⊢
    obtain ⟨l, hl, hlen⟩ := apply_calls_of_ok sys last _ hinit hok
    rw [hl, List.length_append, ih hinit, hlen, List.countP_append, List.countP_singleton]
    omega

/-- A link that is not transforming leaves the payload as it was. -/
theorem apply_data_of_not_transforming (sys : Sys W M E R F) (op : Op W X M E)
    (s : State W X M E) (ht : op.isTransforming = false) :
    Data (op.apply sys s) = Data s := by
  cases op with
  | evaluate x fn => cases hs : s.p.err <;> simp [Op.apply, Evaluate, hs, Data]
  | validate x fn => cases hs : s.p.err <;> simp [Op.apply, Validate, hs, Data]
  | transform fn => simp [Op.isTransforming] at ht
  | load file fn => simp [Op.isTransforming] at ht
  | organize file fn => simp [Op.isTransforming] at ht
  | save file =>
    cases hs : s.p.err with
    | some e => simp [Op.apply, Save, hs, Data]
    | none => cases hm : sys.marshal s.p.data <;> simp [Op.apply, Save, hs, hm, Data]
  | gather url file =>
    cases hs : s.p.err with
    | some e => simp [Op.apply, Gather, hs, Data]
    | none =>
      rcases hg : sys.httpGet url s.world with ⟨_ | res, w1⟩
      · simp [Op.apply, Gather, hs, hg, Data]
      · rcases hb : sys.bodyReadAll res w1 with ⟨_ | raw, w2⟩ <;>
          simp [Op.apply, Gather, hs, hg, hb, Data]

/-- A chain without transforming links leaves the payload as it was. -/
theorem runChain_data_of_not_transforming (sys : Sys W M E R F) (chain : List (Op W X M E))
    (s : State W X M E) (ht : ∀ o ∈ chain, o.isTransforming = false) :
    Data (runChain sys chain s) = Data s := by
  induction chain generalizing s with
  | nil => rfl
  | cons op rest ih =>
    rw [runChain_cons, ih (op.apply sys s) (fun o ho => ht o (List.mem_cons_of_mem op ho))]
    exact apply_data_of_not_transforming sys op s (ht op (List.mem_cons_self op rest))

/-- A transforming link that is entered without fault and leaves no fault has stored the payload
that its function returned. -/
theorem returnedPayload_of_ok (sys : Sys W M E R F) (op : Op W X M E) (s : State W X M E)
    (h : Error s = none) (hok : Error (op.apply sys s) = none)
    (ht : op.isTransforming = true) :
    op.returnedPayload sys s = some (Data (op.apply sys s)) := by
  have hs : s.p.err = none := h
  cases op with
  | evaluate x fn => simp [Op.isTransforming] at ht
  | validate x fn => simp [Op.isTransforming] at ht
  | save file => simp [Op.isTransforming] at ht
  | gather url file => simp [Op.isTransforming] at ht
  | transform fn => simp [Op.returnedPayload, Op.apply, Transform, hs, Data]
  | load file fn =>
    rcases hr : sys.readFile file s.world with ⟨e | pb, w1⟩
    · simp [Op.apply, Load, hs, hr, Error] at hok
    · simp [Op.returnedPayload, Op.apply, Load, hs, hr, Data]
  | organize file fn =>
    rcases ho : sys.osOpen file s.world with ⟨e | f, w1⟩
    · simp [Op.apply, Organize, hs, ho, Error] at hok
    · cases hc : csvReadAll sys.errFieldCount (-1) (sys.csvRecords f w1).1 [] with
      | error err => simp [Op.apply, Organize, hs, ho, hc, Error] at hok
      | ok records => simp [Op.returnedPayload, Op.apply, Organize, hs, ho, hc, Data]

/-! ## Methods and effects -/

/-- A link entered without fault runs its effect once: the fault it records is the error that
the effect returns, and the world it leaves is the world that the effect leaves. -/
theorem apply_eq_effect (sys : Sys W M E R F) (op : Op W X M E) (s : State W X M E)
    (h : Error s = none) :
    Error (op.apply sys s) = (op.effect sys s).1 ∧
      (op.apply sys s).world = (op.effect sys s).2 := by
  have hs : s.p.err = none := h
  cases op with
  | evaluate x fn => simp [Op.apply, Op.effect, Evaluate, hs, Error]
  | validate x fn => simp [Op.apply, Op.effect, Validate, hs, Error]
  | transform fn => simp [Op.apply, Op.effect, Transform, hs, Error]
  | load file fn =>
    rcases hr : sys.readFile file s.world with ⟨e | pb, w1⟩ <;>
      simp [Op.apply, Op.effect, Load, hs, hr, Error]
  | organize file fn =>
    rcases ho : sys.osOpen file s.world with ⟨e | f, w1⟩
    · simp [Op.apply, Op.effect, Organize, hs, ho, Error]
    · cases hc : csvReadAll sys.errFieldCount (-1) (sys.csvRecords f w1).1 [] <;>
        simp [Op.apply, Op.effect, Organize, hs, ho, hc, Error]
  | save file =>
    cases hm : sys.marshal s.p.data <;> simp [Op.apply, Op.effect, Save, hs, hm, Error]
  | gather url file =>
    rcases hg : sys.httpGet url s.world with ⟨e | res, w1⟩
    · simp [Op.apply, Op.effect, Gather, hs, hg, Error]
    · rcases hb : sys.bodyReadAll res w1 with ⟨e | raw, w2⟩ <;>
        simp [Op.apply, Op.effect, Gather, hs, hg, hb, Error]

/-- When the effect of every link that is entered without fault succeeds, the chain ends
without fault. -/
theorem runChain_ok_of_effects_succeed (sys : Sys W M E R F) (s : State W X M E)
    (hs : Error s = none) (chain : List (Op W X M E))
    (h : ∀ pre op post, chain = pre ++ op :: post → Error (runChain sys pre s) = none →
      (op.effect sys (runChain sys pre s)).1 = none) :
    Error (runChain sys chain s) = none := by
  apply runChain_ok_of_all_succeed sys s hs chain
  intro pre op post hsplit hpre
  rw [(apply_eq_effect sys op _ hpre).1]
  exact h pre op post hsplit hpre

/-- In a chain that ends without fault, the effect of every link has succeeded. -/
theorem effects_succeed_of_final_ok (sys : Sys W M E R F) (chain : List (Op W X M E))
    (s : State W X M E) (h : Error (runChain sys chain s) = none)
    (pre : List (Op W X M E)) (op : Op W X M E) (post : List (Op W X M E))
    (hsplit : chain = pre ++ op :: post) (hpre : Error (runChain sys pre s) = none) :
    (op.effect sys (runChain sys pre s)).1 = none := by
  rw [← (apply_eq_effect sys op _ hpre).1]
  exact all_succeed_of_final_ok sys chain s h pre op post hsplit hpre

/-- C1. In a chain called on a fresh pipeline, let `op` be the first link whose effect fails:
the effect of every link of `pre` before it succeeds when it is run, and the effect of `op`, run
in the state that `pre` leaves, returns the error `e`. Then `Error()` after the whole chain is
`e`, whatever links `post` follow; the world after the chain is the one that the effect of `op`
left, so no later effect has run. -/
theorem first_failure_is_final_error (sys : Sys W M E R F) (w : W)
    (pre post : List (Op W X M E)) (op : Op W X M E) (e : E)
    (hpre : ∀ pre1 o post1, pre = pre1 ++ o :: post1 →
      Error (runChain sys pre1 (State.fresh w)) = none →
      (o.effect sys (runChain sys pre1 (State.fresh w))).1 = none)
    (hop : (op.effect sys (runChain sys pre (State.fresh w))).1 = some e) :
    Error (runChain sys (pre ++ op :: post) (State.fresh w)) = some e ∧
    (runChain sys (pre ++ op :: post) (State.fresh w)).world =
      (op.effect sys (runChain sys pre (State.fresh w))).2 := by
  have hok : Error (runChain sys pre (State.fresh w)) = none :=
    runChain_ok_of_effects_succeed sys (State.fresh w) rfl pre hpre
  rw [runChain_append, runChain_cons]
  generalize runChain sys pre (State.fresh w) = s at hok hop ⊢
  have hs : s.p.err = none := hok
  have hrec : Error (op.apply sys s) = (op.effect sys s).1 ∧
      (op.apply sys s).world = (op.effect sys s).2 := by
    cases op with
    | evaluate x fn => simp [Op.apply, Op.effect, Evaluate, hs, Error]
    | validate x fn => simp [Op.apply, Op.effect, Validate, hs, Error]
    | transform fn => simp [Op.apply, Op.effect, Transform, hs, Error]
    | load file fn =>
      rcases hr : sys.readFile file s.world with ⟨e1 | pb, w1⟩ <;>
        simp [Op.apply, Op.effect, Load, hs, hr, Error]
    | organize file fn =>
      rcases ho : sys.osOpen file s.world with ⟨e1 | f, w1⟩
      · simp [Op.apply, Op.effect, Organize, hs, ho, Error]
      · cases hc : csvReadAll sys.errFieldCount (-1) (sys.csvRecords f w1).1 [] <;>
          simp [Op.apply, Op.effect, Organize, hs, ho, hc, Error]
    | save file =>
      cases hm : sys.marshal s.p.data <;> simp [Op.apply, Op.effect, Save, hs, hm, Error]
    | gather url file =>
      rcases hg : sys.httpGet url s.world with ⟨e1 | res, w1⟩
      · simp [Op.apply, Op.effect, Gather, hs, hg, Error]
      · rcases hb : sys.bodyReadAll res w1 with ⟨e1 | raw, w2⟩ <;>
          simp [Op.apply, Op.effect, Gather, hs, hg, hb, Error]
  obtain ⟨herr, hworld⟩ := hrec
  rw [hop] at herr
  rw [runChain_of_faulted sys post _ e herr]
  exact ⟨herr, hworld⟩

/-- Witness for C1: a payload is set, then `Gather` fails on an unsupported URL; a failing
`Evaluate`, a `Load` of a missing file and a `Save` follow. -/
theorem first_failure_is_final_error_witness :
    Error (runChain memSys memFailingChain memFresh) = some "unsupported protocol scheme" ∧
    (runChain memSys memFailingChain memFresh).world =
      (Op.effect memSys (Op.gather "" "iris.csv")
        (runChain memSys [Op.transform sevenTransform] memFresh)).2 :=
  first_failure_is_final_error memSys [] [Op.transform sevenTransform]
    [Op.evaluate "x" failInspect, Op.load "missing.pb" memDecode, Op.save "a.pb"]
    (Op.gather "" "iris.csv") "unsupported protocol scheme"
    (effects_succeed_of_final_ok memSys [Op.transform sevenTransform] (State.fresh [])
      (by decide))
    rfl

/-- C3. With a call-counting stand-in as the caller-supplied function, one call of a method
invokes it as often as the counter grows. On a pipeline faulted at entry the counter does not
grow; otherwise it grows by exactly 1 for `Evaluate`, `Validate` and `Transform`, and by at
most 1 for `Load` and `Organize`. The entries `l` that the call appends to the log of
invocations are as many as the counter grows. -/
theorem callback_invoked_at_most_once (sys : Sys W M E R F) (s : State (W × Nat) X M E) :
    (∀ (x : X) (fn : X → Option M → W → Option E × W), ∃ l,
      (Evaluate x (fun y => counting (fn y)) s).calls = s.calls ++ l ∧
      (Evaluate x (fun y => counting (fn y)) s).world.2 = s.world.2 + l.length ∧
      l.length = if (Error s).isSome then 0 else 1) ∧
    (∀ (x : X) (fn : X → Option M → W → Option E × W), ∃ l,
      (Validate x (fun y => counting (fn y)) s).calls = s.calls ++ l ∧
      (Validate x (fun y => counting (fn y)) s).world.2 = s.world.2 + l.length ∧
      l.length = if (Error s).isSome then 0 else 1) ∧
    (∀ fn : Option M → W → (Option M × Option E) × W, ∃ l,
      (Transform (counting fn) s).calls = s.calls ++ l ∧
      (Transform (counting fn) s).world.2 = s.world.2 + l.length ∧
      l.length = if (Error s).isSome then 0 else 1) ∧
    (∀ (file : String) (fn : Bytes → W → (Option M × Option E) × W), ∃ l,
      (Load sys.withCounter file (counting fn) s).calls = s.calls ++ l ∧
      (Load sys.withCounter file (counting fn) s).world.2 = s.world.2 + l.length ∧
      l.length ≤ 1 ∧ ((Error s).isSome → l.length = 0)) ∧
    (∀ (file : String) (fn : List Record → W → (Option M × Option E) × W), ∃ l,
      (Organize sys.withCounter file (counting fn) s).calls = s.calls ++ l ∧
      (Organize sys.withCounter file (counting fn) s).world.2 = s.world.2 + l.length ∧
      l.length ≤ 1 ∧ ((Error s).isSome → l.length = 0)) := by
  cases hs : s.p.err with
  | some e =>
    refine ⟨?_, ?_, ?_, ?_, ?_⟩
    · intro x fn
      exact ⟨[], by simp [Evaluate_of_faulted _ _ s e hs],
        by simp [Evaluate_of_faulted _ _ s e hs], by simp [Error, hs]⟩
    · intro x fn
      exact ⟨[], by simp [Validate_of_faulted _ _ s e hs],
        by simp [Validate_of_faulted _ _ s e hs], by simp [Error, hs]⟩
    · intro fn
      exact ⟨[], by simp [Transform_of_faulted _ s e hs],
        by simp [Transform_of_faulted _ s e hs], by simp [Error, hs]⟩
    · intro file fn
      exact ⟨[], by simp [Load_of_faulted _ file _ s e hs],
        by simp [Load_of_faulted _ file _ s e hs], by simp, by simp⟩
    · intro file fn
      exact ⟨[], by simp [Organize_of_faulted _ file _ s e hs],
        by simp [Organize_of_faulted _ file _ s e hs], by simp, by simp⟩
  | none =>
    refine ⟨?_, ?_, ?_, ?_, ?_⟩
    · intro x fn
      exact ⟨[Call.inspect x s.p.data], by simp [Evaluate, hs],
        by simp [Evaluate, hs, counting], by simp [Error, hs]⟩
    · intro x fn
      exact ⟨[Call.inspect x s.p.data], by simp [Validate, hs],
        by simp [Validate, hs, counting], by simp [Error, hs]⟩
    · intro fn
      exact ⟨[Call.transform s.p.data], by simp [Transform, hs],
        by simp [Transform, hs, counting], by simp [Error, hs]⟩
    · intro file fn
      rcases hr : sys.readFile file s.world.1 with ⟨_ | pb, w1⟩
      · exact ⟨[], by simp [Load, Sys.withCounter, hs, hr],
          by simp [Load, Sys.withCounter, hs, hr], by simp, by simp⟩
      · exact ⟨[Call.decode pb], by simp [Load, Sys.withCounter, hs, hr],
          by simp [Load, Sys.withCounter, hs, hr, counting], by simp, by simp [Error, hs]⟩
    · intro file fn
      rcases ho : sys.osOpen file s.world.1 with ⟨_ | f, w1⟩
      · exact ⟨[], by simp [Organize, Sys.withCounter, hs, ho],
          by simp [Organize, Sys.withCounter, hs, ho], by simp, by simp⟩
      · cases hc : csvReadAll sys.errFieldCount (-1) (sys.csvRecords f w1).1 [] with
        | error err =>
          exact ⟨[], by simp [Organize, Sys.withCounter, hs, ho, hc],
            by simp [Organize, Sys.withCounter, hs, ho, hc], by simp, by simp⟩
        | ok records =>
          exact ⟨[Call.encode records], by simp [Organize, Sys.withCounter, hs, ho, hc],
            by simp [Organize, Sys.withCounter, hs, ho, hc, counting], by simp,
            by simp [Error, hs]⟩

/-- Witness for C3: with the counter at 0, a `Load` on a faulted pipeline leaves it at 0, and
a `Transform` on a fresh pipeline leaves it at 1. -/
theorem callback_invoked_at_most_once_witness :
    (Load memSys.withCounter "a.pb" (counting memDecode) (memFaulted.withCounter 0)).world.2 = 0 ∧
    (Transform (counting sevenTransform) (memFresh.withCounter 0)).world.2 = 1 := by
  obtain ⟨l, _, h2, _, h4⟩ :=
    (callback_invoked_at_most_once memSys (memFaulted.withCounter 0)).2.2.2.1 "a.pb" memDecode
  obtain ⟨l2, _, k2, k3⟩ :=
    (callback_invoked_at_most_once memSys (memFresh.withCounter 0)).2.2.1 sevenTransform
  constructor
  · rw [h2, h4 rfl]
    rfl
  · rw [k2, k3]
    rfl

/-- C8. On a pipeline without fault, when reading the named file fails with `e`, after
`Load(path, decode)` `Error()` is `e`, which is not nil, and `decode` has not been invoked: the
world is the one that the failed read left, the log of invocations is as it was, and with a
call-counting stand-in as `decode` the counter keeps its value `n`. -/
theorem Load_read_failure (sys : Sys W M E R F) (path : String)
    (decode : Bytes → W → (Option M × Option E) × W) (s : State W X M E) (e : E) (w1 : W)
    (h : Error s = none) (hr : sys.readFile path s.world = (.error e, w1)) :
    Error (Load sys path decode s) = some e ∧ Error (Load sys path decode s) ≠ none ∧
      (Load sys path decode s).world = w1 ∧
      (Load sys path decode s).calls = s.calls ∧
      ∀ n, (Load sys.withCounter path (counting decode) (s.withCounter n)).world = (w1, n) := by
  have hs : s.p.err = none := h
  refine ⟨?_, ?_, ?_, ?_, ?_⟩
  · simp [Load, hs, hr, Error]
  · simp [Load, hs, hr, Error]
  · simp [Load, hs, hr]
  · simp [Load, hs, hr]
  · intro n
    simp [Load, Sys.withCounter, State.withCounter, hs, hr]

/-- Witness for C8: loading below a directory that does not exist, as in the tests; the
counter of the stand-in stays at 0. -/
theorem Load_read_failure_witness :
    Error (Load memSys "not_exists/save.pb" failDecode memFresh) =
        some "no such file or directory" ∧
      Error (Load memSys "not_exists/save.pb" failDecode memFresh) ≠ none ∧
      (Load memSys "not_exists/save.pb" failDecode memFresh).world = [] ∧
      (Load memSys "not_exists/save.pb" failDecode memFresh).calls = memFresh.calls ∧
      ∀ n, (Load memSys.withCounter "not_exists/save.pb" (counting failDecode)
        (memFresh.withCounter n)).world = ([], n) :=
  Load_read_failure memSys "not_exists/save.pb" failDecode memFresh
    "no such file or directory" [] rfl rfl

/-- C16. Take a chain called on a fresh pipeline in which every effect that is run succeeds:
the effect of every link that is entered without fault returns no error. Then `Error()` after
the chain is nil. Every link is entered without fault and runs its effect exactly once, on the
state left by the links before it: the world after the link is the world that one run of its
effect leaves, and the log of invocations grows by one entry when the link takes a function and
by none otherwise, so that the log after the chain has one entry per such link, in chain order.
`Data()` after the chain is the payload returned by the function of the last transforming link,
and nil when the chain has no transforming link. -/
theorem fault_free_chain (sys : Sys W M E R F) (w : W) (chain : List (Op W X M E))
    (h : ∀ pre op post, chain = pre ++ op :: post →
      Error (runChain sys pre (State.fresh w)) = none →
      (op.effect sys (runChain sys pre (State.fresh w))).1 = none) :
    Error (runChain sys chain (State.fresh w)) = none ∧
    (∀ pre op post, chain = pre ++ op :: post →
      Error (runChain sys pre (State.fresh w)) = none ∧
      (runChain sys (pre ++ [op]) (State.fresh w)).world =
        (op.effect sys (runChain sys pre (State.fresh w))).2 ∧
      ∃ l, (runChain sys (pre ++ [op]) (State.fresh w)).calls =
          (runChain sys pre (State.fresh w)).calls ++ l ∧
        l.length = if op.takesFn then 1 else 0) ∧
    (runChain sys chain (State.fresh w)).calls.length = chain.countP Op.takesFn ∧
    (∀ pre op post, chain = pre ++ op :: post → op.isTransforming = true →
      (∀ o ∈ post, o.isTransforming = false) →
      op.returnedPayload sys (runChain sys pre (State.fresh w)) =
        some (Data (runChain sys chain (State.fresh w)))) ∧
    ((∀ o ∈ chain, o.isTransforming = false) →
      Data (runChain sys chain (State.fresh w)) = none) := by
  have hrec : ∀ (op : Op W X M E) (s : State W X M E), Error s = none →
      Error (op.apply sys s) = (op.effect sys s).1 ∧
        (op.apply sys s).world = (op.effect sys s).2 := by
    intro op s hs0
    have hs : s.p.err = none := hs0
    cases op with
    | evaluate x fn => simp [Op.apply, Op.effect, Evaluate, hs, Error]
    | validate x fn => simp [Op.apply, Op.effect, Validate, hs, Error]
    | transform fn => simp [Op.apply, Op.effect, Transform, hs, Error]
    | load file fn =>
      rcases hr : sys.readFile file s.world with ⟨e1 | pb, w1⟩ <;>
        simp [Op.apply, Op.effect, Load, hs, hr, Error]
    | organize file fn =>
      rcases ho : sys.osOpen file s.world with ⟨e1 | f, w1⟩
      · simp [Op.apply, Op.effect, Organize, hs, ho, Error]
      · cases hc : csvReadAll sys.errFieldCount (-1) (sys.csvRecords f w1).1 [] <;>
          simp [Op.apply, Op.effect, Organize, hs, ho, hc, Error]
    | save file =>
      cases hm : sys.marshal s.p.data <;> simp [Op.apply, Op.effect, Save, hs, hm, Error]
    | gather url file =>
      rcases hg : sys.httpGet url s.world with ⟨e1 | res, w1⟩
      · simp [Op.apply, Op.effect, Gather, hs, hg, Error]
      · rcases hb : sys.bodyReadAll res w1 with ⟨e1 | raw, w2⟩ <;>
          simp [Op.apply, Op.effect, Gather, hs, hg, hb, Error]
  have hfinal : Error (runChain sys chain (State.fresh w)) = none :=
    runChain_ok_of_effects_succeed sys (State.fresh w) rfl chain h
  have hentry : ∀ pre op post, chain = pre ++ op :: post →
      Error (runChain sys pre (State.fresh w)) = none := by
    intro pre op post hsplit
    rw [hsplit] at hfinal
    exact error_none_of_runChain_append sys pre (op :: post) _ hfinal
  have hlink : ∀ pre op post, chain = pre ++ op :: post →
      Error (op.apply sys (runChain sys pre (State.fresh w))) = none := by
    intro pre op post hsplit
    rw [(hrec op _ (hentry pre op post hsplit)).1]
    exact h pre op post hsplit (hentry pre op post hsplit)
  refine ⟨hfinal, ?_, ?_, ?_, ?_⟩
  · intro pre op post hsplit
    have hpre := hentry pre op post hsplit
    refine ⟨hpre, ?_, ?_⟩
    · rw [runChain_snoc]
      exact (hrec op _ hpre).2
    · rw [runChain_snoc]
      exact apply_calls_of_ok sys op _ hpre (hlink pre op post hsplit)
  · have hlen := runChain_calls_length sys (State.fresh w) chain hfinal
    simpa [State.fresh] using hlen
  · intro pre op post hsplit ht hpost
    have hpre := hentry pre op post hsplit
    rw [returnedPayload_of_ok sys op _ hpre (hlink pre op post hsplit) ht]
    have hrun : runChain sys chain (State.fresh w) =
        runChain sys post (op.apply sys (runChain sys pre (State.fresh w))) := by
      rw [hsplit, runChain_append, runChain_cons]
    rw [hrun, runChain_data_of_not_transforming sys post _ hpost]
  · intro hnone
    rw [runChain_data_of_not_transforming sys chain _ hnone]
    rfl

/-- Witness for C16: fetch, organize into the number of records, inspect, save, load back,
inspect. All six effects succeed; the `Save` link leaves the world that its write leaves; the
four functions are invoked once each; the payload is the one returned by the decode function
of `Load`, the last transforming link. -/
theorem fault_free_chain_witness :
    Error (runChain memSys memChain memFresh) = none ∧
    (runChain memSys
        ([Op.gather "u" "iris.csv", Op.organize "iris.csv" countEncode,
          Op.evaluate "x" okInspect] ++ [Op.save "iris.pb"]) memFresh).world =
      [("iris.pb", [0, 0]), ("iris.csv", [3, 1])] ∧
    (runChain memSys memChain memFresh).calls.length = 4 ∧
    Op.returnedPayload memSys (Op.load "iris.pb" memDecode)
        (runChain memSys
          [Op.gather "u" "iris.csv", Op.organize "iris.csv" countEncode,
            Op.evaluate "x" okInspect, Op.save "iris.pb"] memFresh) =
      some (Data (runChain memSys memChain memFresh)) ∧
    Data (runChain memSys memChain memFresh) = some 2 := by
  have key := fault_free_chain memSys [] memChain
    (effects_succeed_of_final_ok memSys memChain (State.fresh []) (by decide))
  refine ⟨key.1, ?_, key.2.2.1, ?_, by decide⟩
  · exact (key.2.1
      [Op.gather "u" "iris.csv", Op.organize "iris.csv" countEncode, Op.evaluate "x" okInspect]
      (Op.save "iris.pb") [Op.load "iris.pb" memDecode, Op.validate "y" okInspect] rfl).2.1
  · exact key.2.2.2.1
      [Op.gather "u" "iris.csv", Op.organize "iris.csv" countEncode,
        Op.evaluate "x" okInspect, Op.save "iris.pb"]
      (Op.load "iris.pb" memDecode) [Op.validate "y" okInspect] rfl rfl
      (by simp [Op.isTransforming])

end GoPipeline
